/-
Verification of the cuber repository's natural-language specification
against a shallow embedding of its Python source (src/cuber/*.py).

Numeric values are modelled by exact rationals (ℚ); Python's `int(x)`
conversion (truncation toward zero) is `truncQ`; Python `abs` on the
resulting integer is `Int.natAbs`-style absolute value `|·|` on ℤ.
Fallible code is modelled with `Except PyErr`.
-/
import Mathlib

namespace Cuber

/-- Python exception kinds raised by the code under `src/cuber`.
`indexError` models a builtin IndexError (e.g. `srcs[0]` on an empty
list), `assertionError` a failed `assert`, `typeError` e.g. `np.empty`
receiving `None` as a dimension, `notImplemented` the
`raise NotImplemented` in `TileCube.create`. -/
inductive PyErr
  | indexError
  | assertionError
  | typeError
  | notImplemented
  deriving DecidableEq, Repr

/-- Truncation toward zero: the behaviour of Python's `int()` applied to a
real (float) value, modelled on ℚ. -/
def truncQ (q : ℚ) : ℤ := if 0 ≤ q then ⌊q⌋ else ⌈q⌉

/-- The six affine geotransform coefficients in rasterio's `Affine` order:
`x = a·col + b·row + c`, `y = d·col + e·row + f`; indexing `gt[0] = a`,
`gt[2] = c`, `gt[4] = e`, `gt[5] = f` as used in `__to_rowcol`. -/
structure Affine where
  a : ℚ
  b : ℚ
  c : ℚ
  d : ℚ
  e : ℚ
  f : ℚ
  deriving DecidableEq, Repr

/-- Forward application of the affine geotransform to fractional
(col, row) indices, as rasterio's `Affine * (col, row)`. -/
def Affine.apply (g : Affine) (col row : ℚ) : ℚ × ℚ :=
  (g.a * col + g.b * row + g.c, g.d * col + g.e * row + g.f)

/-- `TransformParams` from `src/cuber/cuber.py` (the variant whose width
and height are `Union[int, None]`); bands is the 1-based band list. -/
structure TransformParams where
  transform : Affine
  width : Option ℤ
  height : Option ℤ
  crs : String
  bands : List ℕ
  deriving DecidableEq, Repr

/-- `TransformParams.__to_rowcol(lat, lng)`:
`pixel = abs(int((lng - ulX) / xDist))`, `line = abs(int((ulY - lat) / yDist))`,
returning `(line, pixel)` i.e. (row, col). -/
def TransformParams.to_rowcol (tp : TransformParams) (lat lng : ℚ) : ℤ × ℤ :=
  let gt := tp.transform
  let ulX := gt.c
  let ulY := gt.f
  let xDist := gt.a
  let yDist := gt.e
  let pixel := |truncQ ((lng - ulX) / xDist)|
  let line := |truncQ ((ulY - lat) / yDist)|
  (line, pixel)

/-- `TransformParams.slice(ul, lr)`: maps `__to_rowcol` over the two corner
points `[ul, lr]` (each a (lat, lng) pair). -/
def TransformParams.slice (tp : TransformParams) (ul lr : ℚ × ℚ) :
    List (ℤ × ℤ) :=
  [ul, lr].map fun x => tp.to_rowcol x.1 x.2

/-- Key arithmetic fact relating the code's `abs(int(q))` to the spec's
`floor(|q|)`: truncation toward zero followed by absolute value equals the
floor of the absolute value. -/
theorem abs_truncQ (q : ℚ) : |truncQ q| = ⌊|q|⌋ := by
  unfold truncQ
  by_cases h : 0 ≤ q
  · rw [if_pos h, abs_of_nonneg h, abs_of_nonneg (Int.floor_nonneg.mpr h)]
  · push_neg at h
    have hc : ⌈q⌉ ≤ 0 := Int.ceil_le.mpr (by exact_mod_cast h.le)
    rw [if_neg (not_le.mpr h), abs_of_neg h, abs_of_nonpos hc, ← Int.floor_neg]

/-- C1: for a grid transform with b = d = 0 and nonzero a, e, `__to_rowcol`
returns col = ⌊|(lng − c) / a|⌋ and row = ⌊|(f − lat) / e|⌋: the code's
`abs(int(q))` equals the spec's floor of the absolute quotient. -/
theorem toRowCol_floor_abs (tp : TransformParams)
    (hb : tp.transform.b = 0) (hd : tp.transform.d = 0)
    (ha : tp.transform.a ≠ 0) (he : tp.transform.e ≠ 0) (lat lng : ℚ) :
    tp.to_rowcol lat lng =
      (⌊|(tp.transform.f - lat) / tp.transform.e|⌋,
       ⌊|(lng - tp.transform.c) / tp.transform.a|⌋) := by
  simp only [TransformParams.to_rowcol, abs_truncQ]

/-- C1 witness: the theorem instantiated at a concrete transform and point. -/
theorem toRowCol_floor_abs_witness :
    (⟨⟨2, 0, 1, 0, -3, 10⟩, some 4, some 4, "EPSG:4326", [1]⟩ :
        TransformParams).to_rowcol 4 8 =
      (⌊|((10 : ℚ) - 4) / (-3)|⌋, ⌊|((8 : ℚ) - 1) / 2|⌋) :=
  toRowCol_floor_abs _ rfl rfl (by norm_num) (by norm_num) 4 8

/-- C10: for any transform with nonzero pixel width/height and any point —
including points left of or above the origin — `__to_rowcol` returns a
non-negative row and column: the `abs` folds out-of-extent coordinates back
onto non-negative indices. -/
theorem toRowCol_nonneg (tp : TransformParams)
    (ha : tp.transform.a ≠ 0) (he : tp.transform.e ≠ 0) (lat lng : ℚ) :
    0 ≤ (tp.to_rowcol lat lng).1 ∧ 0 ≤ (tp.to_rowcol lat lng).2 := by
  simp only [TransformParams.to_rowcol]
  exact ⟨abs_nonneg _, abs_nonneg _⟩

/-- C10 witness: a point above and left of the grid origin still yields
non-negative indices. -/
theorem toRowCol_nonneg_witness :
    0 ≤ ((⟨⟨1, 0, 0, 0, -1, 0⟩, none, none, "EPSG:4326", [1]⟩ :
        TransformParams).to_rowcol 5 (-7)).1 ∧
    0 ≤ ((⟨⟨1, 0, 0, 0, -1, 0⟩, none, none, "EPSG:4326", [1]⟩ :
        TransformParams).to_rowcol 5 (-7)).2 :=
  toRowCol_nonneg _ (by norm_num) (by norm_num) 5 (-7)

/-- C4 counterexample: with the transform (a,b,c,d,e,f) = (1,0,0,0,−1,0)
and the point (lat, lng) = (0, −5) — left of the grid origin — `__to_rowcol`
returns (row, col) = (0, 5); mapping (col, row) back through the transform
gives x = 5, which is 10 > 1 = |a| away from the original lng = −5, so the
round trip is NOT within one pixel for every input point. -/
theorem roundtrip_within_pixel_cex :
    ((⟨⟨1, 0, 0, 0, -1, 0⟩, none, none, "EPSG:4326", [1]⟩ :
        TransformParams).to_rowcol 0 (-5) = (0, 5)) ∧
    ¬ |((Affine.apply ⟨1, 0, 0, 0, -1, 0⟩ 5 0).1 - (-5))| ≤ |(1 : ℚ)| := by
  constructor
  · have h5 : ⌈(-5 : ℚ)⌉ = -5 := by
      rw [show (-5 : ℚ) = ((-5 : ℤ) : ℚ) by norm_num]
      exact Int.ceil_intCast _
    norm_num [TransformParams.to_rowcol, truncQ, h5]
  · norm_num [Affine.apply]

/-- C4 (amended): the round trip through `__to_rowcol` and the forward
affine map recovers the point to within one pixel provided the point lies on
the grid side of the origin, i.e. (lng − c)/a ≥ 0 and (f − lat)/e ≤ 0
(for the usual a > 0, e < 0 this means lng ≥ c and lat ≤ f); for points on
the other side the absolute value folds the index back and the error is
unbounded. -/
theorem roundtrip_within_pixel (tp : TransformParams)
    (hb : tp.transform.b = 0) (hd : tp.transform.d = 0)
    (ha : tp.transform.a ≠ 0) (he : tp.transform.e ≠ 0) (lat lng : ℚ)
    (hq : 0 ≤ (lng - tp.transform.c) / tp.transform.a)
    (hs : (tp.transform.f - lat) / tp.transform.e ≤ 0) :
    |(tp.transform.apply ((tp.to_rowcol lat lng).2 : ℚ)
        ((tp.to_rowcol lat lng).1 : ℚ)).1 - lng| ≤ |tp.transform.a| ∧
    |(tp.transform.apply ((tp.to_rowcol lat lng).2 : ℚ)
        ((tp.to_rowcol lat lng).1 : ℚ)).2 - lat| ≤ |tp.transform.e| := by
  obtain ⟨⟨a, b, c, d, e, f⟩, wd, ht, cr, bs⟩ := tp
  simp only at hb hd ha he hq hs
  subst hb; subst hd
  simp only [TransformParams.to_rowcol, Affine.apply, zero_mul, add_zero,
    zero_add]
  have habs : ∀ x : ℚ, |(⌊x⌋ : ℚ) - x| ≤ 1 := fun x => by
    rw [abs_le]
    constructor
    · linarith [Int.lt_floor_add_one x]
    · linarith [Int.floor_le x]
  constructor
  · have hpix : |truncQ ((lng - c) / a)| = ⌊(lng - c) / a⌋ := by
      rw [abs_truncQ, abs_of_nonneg hq]
    rw [hpix]
    have hlng : a * ((lng - c) / a) = lng - c := by field_simp
    have heq : a * ((⌊(lng - c) / a⌋ : ℚ)) + c - lng
        = a * ((⌊(lng - c) / a⌋ : ℚ) - (lng - c) / a) := by
      rw [mul_sub, hlng]; ring
    rw [heq, abs_mul]
    calc |a| * |(⌊(lng - c) / a⌋ : ℚ) - (lng - c) / a|
        ≤ |a| * 1 := mul_le_mul_of_nonneg_left (habs _) (abs_nonneg a)
      _ = |a| := mul_one _
  · have hline : |truncQ ((f - lat) / e)| = ⌊-((f - lat) / e)⌋ := by
      rw [abs_truncQ, abs_of_nonpos hs]
    rw [hline]
    have hlat : e * ((f - lat) / e) = f - lat := by field_simp
    have heq : e * ((⌊-((f - lat) / e)⌋ : ℚ)) + f - lat
        = e * ((⌊-((f - lat) / e)⌋ : ℚ) - -((f - lat) / e)) := by
      rw [mul_sub, mul_neg, hlat]; ring
    rw [heq, abs_mul]
    calc |e| * |(⌊-((f - lat) / e)⌋ : ℚ) - -((f - lat) / e)|
        ≤ |e| * 1 := mul_le_mul_of_nonneg_left (habs _) (abs_nonneg e)
      _ = |e| := mul_one _

/-- A concrete transform-parameter value used by witnesses. -/
def tpEx : TransformParams :=
  ⟨⟨2, 0, 1, 0, -3, 10⟩, some 4, some 4, "EPSG:4326", [1]⟩

/-- C4 (amended) witness: the round-trip bound instantiated at a concrete
transform and an in-quadrant point. -/
theorem roundtrip_within_pixel_witness :
    |(tpEx.transform.apply ((tpEx.to_rowcol 4 8).2 : ℚ)
        ((tpEx.to_rowcol 4 8).1 : ℚ)).1 - 8| ≤ |tpEx.transform.a| ∧
    |(tpEx.transform.apply ((tpEx.to_rowcol 4 8).2 : ℚ)
        ((tpEx.to_rowcol 4 8).1 : ℚ)).2 - 4| ≤ |tpEx.transform.e| :=
  roundtrip_within_pixel tpEx rfl rfl (by norm_num [tpEx])
    (by norm_num [tpEx]) 4 8 (by norm_num [tpEx]) (by norm_num [tpEx])

/-! ### `align_src` (src/cuber/cuber.py) -/

/-- Python truthiness of an `int`-or-`None` value: `None` and `0` are
falsy, every other integer is truthy. -/
def pyTruthy : Option ℤ → Bool
  | none => false
  | some n => n != 0

/-- Python's `all` over a tuple of `int`-or-`None` values. -/
def pyAll (l : List (Option ℤ)) : Bool := l.all pyTruthy

/-- A Python value that is either a bool or `None`: the two sides of the
comparison `all((height, width)) != None` in `align_src`. -/
inductive PyVal
  | pybool (b : Bool)
  | pynone
  deriving DecidableEq, Repr

/-- The condition of the `assert` in `align_src`:
`all((transform_params.height, transform_params.width)) != None`. -/
def align_src_assert (tp : TransformParams) : Bool :=
  PyVal.pybool (pyAll [tp.height, tp.width]) != PyVal.pynone

/-- `align_src`, modelled up to the destination-buffer allocation (the
`reproject` call itself is an external collaborator): first the `assert`,
then `np.empty((len(bands), height, width))` — which raises a TypeError if
a dimension is `None`. On success, returns the allocated buffer shape. -/
def align_src (tp : TransformParams) : Except PyErr (ℕ × ℤ × ℤ) :=
  if align_src_assert tp then
    match tp.height, tp.width with
    | some h, some w => .ok (tp.bands.length, h, w)
    | _, _ => .error .typeError
  else .error .assertionError

/-- C2 (code-bug evidence): the validation `assert` in `align_src` compares
the boolean value of `all((height, width))` with `None`; a bool is never
`None`, so the assert passes for EVERY transform — and a zero-height
transform raises no error at all: the buffer is allocated with height 0 and
reprojection is attempted, contradicting the intended check (its own
message reads "Invalid width or height"). -/
theorem align_src_assert_vacuous :
    (∀ tp : TransformParams, align_src_assert tp = true) ∧
    align_src ⟨⟨1, 0, 0, 0, -1, 0⟩, some 5, some 0, "EPSG:4326", [1]⟩
      = .ok (1, 0, 5) := by
  constructor
  · intro tp; rfl
  · rfl

/-! ### `create_TransformParams` (src/cuber/transform.py) -/

/-- A Python number-or-`None`, the possible runtime type of the width and
height returned by the external `calculate_default_transform`. -/
inductive PyNum
  | pint (n : ℤ)
  | pfloat (q : ℚ)
  | pnone
  deriving DecidableEq, Repr

/-- `create_TransformParams` from `src/cuber/transform.py`, modelled on the
result `trans = (transform, width, height)` of the external
`calculate_default_transform`: `assert isinstance(trans[2], int) and
isinstance(trans[1], int)`, then build the params with
`bands = list(range(1, src.count + 1))`. -/
def create_TransformParams (trans : Affine × PyNum × PyNum)
    (output_crs : String) (count : ℕ) : Except PyErr TransformParams :=
  match trans with
  | (t, .pint w, .pint h) =>
      .ok ⟨t, some w, some h, output_crs, List.range' 1 count⟩
  | _ => .error .assertionError

/-- C3 counterexample: a computed width and height of 0 — not strictly
positive — pass the `isinstance(..., int)` assert unchanged, so the
constructor succeeds instead of failing. -/
theorem create_TransformParams_zero_accepted :
    create_TransformParams (⟨1, 0, 0, 0, -1, 0⟩, .pint 0, .pint 0)
        "EPSG:4326" 1
      = .ok ⟨⟨1, 0, 0, 0, -1, 0⟩, some 0, some 0, "EPSG:4326", [1]⟩ := rfl

/-- C3 (amended): `create_TransformParams` succeeds exactly when the
computed width and height are both integers — fractional or null dimensions
fail the assert — but zero and negative integer dimensions are accepted
unchecked. -/
theorem create_TransformParams_int_check (t : Affine) (w h : PyNum)
    (crs : String) (count : ℕ) :
    (∃ tp, create_TransformParams (t, w, h) crs count = .ok tp) ↔
      (∃ wi, w = .pint wi) ∧ (∃ hi, h = .pint hi) := by
  cases w <;> cases h <;> simp [create_TransformParams]

/-! ### `Bbox` (src/cuber/bbox.py) and `TileCube` (src/cuber/tile.py) -/

/-- `Bbox` from `src/cuber/bbox.py`. -/
structure Bbox where
  left : ℚ
  bottom : ℚ
  right : ℚ
  top : ℚ
  crs : String
  deriving DecidableEq, Repr

/-- `Bbox.__post_init__`: `upper_left = [top, left]`. -/
def Bbox.upper_left (b : Bbox) : ℚ × ℚ := (b.top, b.left)

/-- `Bbox.__post_init__`: `lower_right = [bottom, right]`. -/
def Bbox.lower_right (b : Bbox) : ℚ × ℚ := (b.bottom, b.right)

/-- `TileCube` from `src/cuber/tile.py`; `dates` holds the caller-supplied
date labels. -/
structure TileCube where
  uri : String
  attr : String
  width : ℤ
  height : ℤ
  bands : List ℕ
  dates : List String
  crs : String
  bbox : Bbox
  deriving DecidableEq, Repr

/-- `TileCube.shape`: `(len(bands), height, width, len(dates))`. -/
def TileCube.shape (t : TileCube) : ℤ × ℤ × ℤ × ℤ :=
  ((t.bands.length : ℤ), t.height, t.width, (t.dates.length : ℤ))

/-- `create_TileCube`: after `assert uri.parent.exists()` (the filesystem
state is modelled by the `parentExists` flag), compute
`arr_slice = transparams.slice(bbox.upper_left, bbox.lower_right)`,
`height = abs(arr_slice[0][0] - arr_slice[1][0])`,
`width = abs(arr_slice[0][1] - arr_slice[1][1])`, and build the cube.
`create=True, overwrite=True` raises (`raise NotImplemented`); the tiledb
allocation performed for `create=True` is an external side effect. -/
def create_TileCube (uri attr : String) (bands : List ℕ)
    (dates : List String) (bbox : Bbox) (transparams : TransformParams)
    (parentExists create overwrite : Bool) : Except PyErr TileCube :=
  if parentExists then
    let arr_slice := transparams.slice bbox.upper_left bbox.lower_right
    let height := |(arr_slice.getD 0 (0, 0)).1 - (arr_slice.getD 1 (0, 0)).1|
    let width := |(arr_slice.getD 0 (0, 0)).2 - (arr_slice.getD 1 (0, 0)).2|
    let tilecube : TileCube :=
      ⟨uri, attr, width, height, bands, dates, transparams.crs, bbox⟩
    if create then
      if overwrite then .error .notImplemented else .ok tilecube
    else .ok tilecube
  else .error .assertionError

/-- C5: every TileCube's derived shape is
(band-count, height, width, time-count), and every cube descriptor built by
`create_TileCube` has height resp. width equal to the absolute difference
of the row resp. column indices that `slice` returns for the bounding box's
upper-left and lower-right corners. -/
theorem tileCube_shape_spec :
    (∀ t : TileCube,
      t.shape = ((t.bands.length : ℤ), t.height, t.width,
        (t.dates.length : ℤ))) ∧
    (∀ uri attr bands dates bbox tp, ∃ c,
      create_TileCube uri attr bands dates bbox tp true false false
          = .ok c ∧
      c.height = |(tp.to_rowcol bbox.upper_left.1 bbox.upper_left.2).1
          - (tp.to_rowcol bbox.lower_right.1 bbox.lower_right.2).1| ∧
      c.width = |(tp.to_rowcol bbox.upper_left.1 bbox.upper_left.2).2
          - (tp.to_rowcol bbox.lower_right.1 bbox.lower_right.2).2| ∧
      c.shape = ((bands.length : ℤ), c.height, c.width,
        (dates.length : ℤ))) := by
  refine ⟨fun t => rfl, fun uri attr bands dates bbox tp => ?_⟩
  exact ⟨_, rfl, rfl, rfl, rfl⟩

/-- A concrete bounding box used by counterexamples/witnesses. -/
def bboxPt : Bbox := ⟨1, 10, 1, 10, "EPSG:4326"⟩

/-- C7 counterexample: the cube-descriptor construction does not even
receive the sources, so no label/source count validation exists: a build
with 3 sources but only 2 date labels is not rejected with any error — it
succeeds, and its time dimension is 2 (the label count), not the source
count. -/
theorem build_mismatched_labels_cex :
    ∃ c, create_TileCube "u" "a" [1] ["2020-01-01", "2020-01-02"] bboxPt
        tpEx true false false = Except.ok c ∧ c.shape.2.2.2 = 2 :=
  ⟨_, rfl, rfl⟩

/-- C7 (amended): a cube build with 3 date labels yields a cube whose time
dimension is 3 — the time axis always equals the number of caller-supplied
date labels — but no validation compares the label count with the source
count, so mismatched builds succeed instead of raising InputError. -/
theorem build_time_dimension (uri attr : String) (bands : List ℕ)
    (dates : List String) (bbox : Bbox) (tp : TransformParams) :
    ∃ c, create_TileCube uri attr bands dates bbox tp true false false
        = Except.ok c ∧ c.shape.2.2.2 = (dates.length : ℤ) :=
  ⟨_, rfl, rfl⟩

/-! ### `cube` (src/cuber/cuber.py) -/

/-- Source-raster metadata exposed by the external raster reader. -/
structure Raster where
  crs : String
  width : ℤ
  height : ℤ
  bounds : ℚ × ℚ × ℚ × ℚ
  count : ℕ

/-- `cube(srcs, crs, bbox)`, modelled up to per-source aligned buffer
shapes: `trans = create_TransformParams(srcs[0], crs)` — where `srcs[0]`
raises an IndexError on an empty list before anything else happens — then
`arr_slice = trans.slice(...)` and one `align_src` per source. The external
`calculate_default_transform` is passed in as `cdt`; the numpy slicing of
each aligned array is array data, external to this embedding. -/
def cube (cdt : Raster → String → Affine × PyNum × PyNum)
    (srcs : List Raster) (crs : String) (bbox : Bbox) :
    Except PyErr (List (ℕ × ℤ × ℤ)) :=
  match srcs with
  | [] => .error .indexError
  | s0 :: _ =>
    match create_TransformParams (cdt s0 crs) crs s0.count with
    | .error e => .error e
    | .ok tparams =>
      let _arr_slice := tparams.slice bbox.upper_left bbox.lower_right
      srcs.mapM fun _ => align_src tparams

/-- C6: `cube` on an empty source collection fails immediately when
`srcs[0]` is evaluated — the result is the same error for EVERY possible
grid-transform computation `cdt`, so no grid transform is derived, no
buffer is allocated, and no side effect occurs. (The spec's §7 taxonomy
labels empty-input failures InputError; the Python exception is the
builtin IndexError.) -/
theorem cube_empty_sources
    (cdt : Raster → String → Affine × PyNum × PyNum)
    (crs : String) (bbox : Bbox) :
    cube cdt [] crs bbox = .error .indexError := rfl

/-! ### `create_Bbox` (src/cuber/bbox.py) -/

/-- A geojson feature: its geometry is `None` or a collection of
(x, y) coordinate points. -/
structure Feature where
  geometry : Option (List (ℚ × ℚ))

/-- A parsed geojson document, as far as `create_Bbox` reads it. -/
structure GeoJSON where
  features : List Feature

/-- The external collaborator `rasterio.features.bounds` (spec §4.1/§6):
the enclosing `(left, bottom, right, top)` = (min x, min y, max x, max y)
over the geometry's coordinates. -/
def bounds : List (ℚ × ℚ) → ℚ × ℚ × ℚ × ℚ
  | [] => (0, 0, 0, 0)
  | p :: rest =>
    (rest.foldl (fun m q => min m q.1) p.1,
     rest.foldl (fun m q => min m q.2) p.2,
     rest.foldl (fun m q => max m q.1) p.1,
     rest.foldl (fun m q => max m q.2) p.2)

/-- `create_Bbox`: take `geojson["features"][0]["geometry"]` (an
IndexError when the file has zero features), `assert geom != None`, and
return `Bbox(*bounds(geom), crs=crs)`. -/
def create_Bbox (geojson : GeoJSON) (crs : String) : Except PyErr Bbox :=
  match geojson.features with
  | [] => .error .indexError
  | f0 :: _ =>
    match f0.geometry with
    | none => .error .assertionError
    | some geom =>
      let b := bounds geom
      .ok ⟨b.1, b.2.1, b.2.2.1, b.2.2.2, crs⟩

theorem foldl_min_le_init (l : List ℚ) (a : ℚ) : l.foldl min a ≤ a := by
  induction l generalizing a with
  | nil => exact le_refl a
  | cons x xs ih => exact le_trans (ih (min a x)) (min_le_left a x)

theorem foldl_min_le_mem (l : List ℚ) (a : ℚ) :
    ∀ x ∈ l, l.foldl min a ≤ x := by
  induction l generalizing a with
  | nil => intro x hx; cases hx
  | cons y ys ih =>
    intro x hx
    rcases List.mem_cons.mp hx with h | h
    · subst h
      exact le_trans (foldl_min_le_init ys (min a x)) (min_le_right a x)
    · exact ih (min a y) x h

theorem foldl_min_eq_init_or_mem (l : List ℚ) (a : ℚ) :
    l.foldl min a = a ∨ l.foldl min a ∈ l := by
  induction l generalizing a with
  | nil => exact Or.inl rfl
  | cons y ys ih =>
    rcases ih (min a y) with h | h
    · rcases min_cases a y with ⟨hm, _⟩ | ⟨hm, _⟩
      · exact Or.inl (by rw [List.foldl_cons, h, hm])
      · exact Or.inr (by rw [List.foldl_cons, h, hm]; exact List.mem_cons_self y ys)
    · exact Or.inr (List.mem_cons_of_mem y h)

theorem init_le_foldl_max (l : List ℚ) (a : ℚ) : a ≤ l.foldl max a := by
  induction l generalizing a with
  | nil => exact le_refl a
  | cons x xs ih => exact le_trans (le_max_left a x) (ih (max a x))

theorem mem_le_foldl_max (l : List ℚ) (a : ℚ) :
    ∀ x ∈ l, x ≤ l.foldl max a := by
  induction l generalizing a with
  | nil => intro x hx; cases hx
  | cons y ys ih =>
    intro x hx
    rcases List.mem_cons.mp hx with h | h
    · subst h
      exact le_trans (le_max_right a x) (init_le_foldl_max ys (max a x))
    · exact ih (max a y) x h

theorem foldl_max_eq_init_or_mem (l : List ℚ) (a : ℚ) :
    l.foldl max a = a ∨ l.foldl max a ∈ l := by
  induction l generalizing a with
  | nil => exact Or.inl rfl
  | cons y ys ih =>
    rcases ih (max a y) with h | h
    · rcases max_cases a y with ⟨hm, _⟩ | ⟨hm, _⟩
      · exact Or.inl (by rw [List.foldl_cons, h, hm])
      · exact Or.inr (by rw [List.foldl_cons, h, hm]; exact List.mem_cons_self y ys)
    · exact Or.inr (List.mem_cons_of_mem y h)

/-- The four components of `bounds` on a nonempty point list are the
minimum x, minimum y, maximum x and maximum y, each attained at some
point and bounding every point. -/
theorem bounds_spec (p : ℚ × ℚ) (rest : List (ℚ × ℚ)) :
    (∀ q ∈ p :: rest,
      (bounds (p :: rest)).1 ≤ q.1 ∧ q.1 ≤ (bounds (p :: rest)).2.2.1 ∧
      (bounds (p :: rest)).2.1 ≤ q.2 ∧ q.2 ≤ (bounds (p :: rest)).2.2.2) ∧
    ((∃ q ∈ p :: rest, q.1 = (bounds (p :: rest)).1) ∧
     (∃ q ∈ p :: rest, q.2 = (bounds (p :: rest)).2.1) ∧
     (∃ q ∈ p :: rest, q.1 = (bounds (p :: rest)).2.2.1) ∧
     (∃ q ∈ p :: rest, q.2 = (bounds (p :: rest)).2.2.2)) := by
  have hminx : rest.foldl (fun m q => min m q.1) p.1
      = (rest.map Prod.fst).foldl min p.1 := (List.foldl_map _ _ _ _).symm
  have hminy : rest.foldl (fun m q => min m q.2) p.2
      = (rest.map Prod.snd).foldl min p.2 := (List.foldl_map _ _ _ _).symm
  have hmaxx : rest.foldl (fun m q => max m q.1) p.1
      = (rest.map Prod.fst).foldl max p.1 := (List.foldl_map _ _ _ _).symm
  have hmaxy : rest.foldl (fun m q => max m q.2) p.2
      = (rest.map Prod.snd).foldl max p.2 := (List.foldl_map _ _ _ _).symm
  constructor
  · intro q hq
    rcases List.mem_cons.mp hq with h | h
    · subst h
      refine ⟨?_, ?_, ?_, ?_⟩
      · simpa [bounds, hminx] using foldl_min_le_init (rest.map Prod.fst) q.1
      · simpa [bounds, hmaxx] using init_le_foldl_max (rest.map Prod.fst) q.1
      · simpa [bounds, hminy] using foldl_min_le_init (rest.map Prod.snd) q.2
      · simpa [bounds, hmaxy] using init_le_foldl_max (rest.map Prod.snd) q.2
    · refine ⟨?_, ?_, ?_, ?_⟩
      · simpa [bounds, hminx] using
          foldl_min_le_mem (rest.map Prod.fst) p.1 q.1
            (List.mem_map_of_mem Prod.fst h)
      · simpa [bounds, hmaxx] using
          mem_le_foldl_max (rest.map Prod.fst) p.1 q.1
            (List.mem_map_of_mem Prod.fst h)
      · simpa [bounds, hminy] using
          foldl_min_le_mem (rest.map Prod.snd) p.2 q.2
            (List.mem_map_of_mem Prod.snd h)
      · simpa [bounds, hmaxy] using
          mem_le_foldl_max (rest.map Prod.snd) p.2 q.2
            (List.mem_map_of_mem Prod.snd h)
  · refine ⟨?_, ?_, ?_, ?_⟩
    · rcases foldl_min_eq_init_or_mem (rest.map Prod.fst) p.1 with h | h
      · exact ⟨p, List.mem_cons_self p rest, by simp [bounds, hminx, h]⟩
      · rcases List.mem_map.mp h with ⟨q, hq, hqx⟩
        exact ⟨q, List.mem_cons_of_mem p hq, by simp [bounds, hminx, hqx]⟩
    · rcases foldl_min_eq_init_or_mem (rest.map Prod.snd) p.2 with h | h
      · exact ⟨p, List.mem_cons_self p rest, by simp [bounds, hminy, h]⟩
      · rcases List.mem_map.mp h with ⟨q, hq, hqy⟩
        exact ⟨q, List.mem_cons_of_mem p hq, by simp [bounds, hminy, hqy]⟩
    · rcases foldl_max_eq_init_or_mem (rest.map Prod.fst) p.1 with h | h
      · exact ⟨p, List.mem_cons_self p rest, by simp [bounds, hmaxx, h]⟩
      · rcases List.mem_map.mp h with ⟨q, hq, hqx⟩
        exact ⟨q, List.mem_cons_of_mem p hq, by simp [bounds, hmaxx, hqx]⟩
    · rcases foldl_max_eq_init_or_mem (rest.map Prod.snd) p.2 with h | h
      · exact ⟨p, List.mem_cons_self p rest, by simp [bounds, hmaxy, h]⟩
      · rcases List.mem_map.mp h with ⟨q, hq, hqy⟩
        exact ⟨q, List.mem_cons_of_mem p hq, by simp [bounds, hmaxy, hqy]⟩

/-- C9: `create_Bbox` fails on a zero-feature file (IndexError — the
spec's InputError class) and on a null first geometry (the `assert`), and
on success returns the Bbox enclosing the first feature's geometry: every
point lies within [left, right] × [bottom, top] and each of the four
bounds is attained by some coordinate. -/
theorem create_Bbox_spec (g : GeoJSON) (crs : String) :
    (g.features = [] → create_Bbox g crs = .error .indexError) ∧
    (∀ f0 fs, g.features = f0 :: fs → f0.geometry = none →
      create_Bbox g crs = .error .assertionError) ∧
    (∀ f0 fs p rest, g.features = f0 :: fs →
      f0.geometry = some (p :: rest) →
      ∃ bb, create_Bbox g crs = .ok bb ∧ bb.crs = crs ∧
        (∀ q ∈ p :: rest, bb.left ≤ q.1 ∧ q.1 ≤ bb.right ∧
          bb.bottom ≤ q.2 ∧ q.2 ≤ bb.top) ∧
        (∃ q ∈ p :: rest, q.1 = bb.left) ∧
        (∃ q ∈ p :: rest, q.2 = bb.bottom) ∧
        (∃ q ∈ p :: rest, q.1 = bb.right) ∧
        (∃ q ∈ p :: rest, q.2 = bb.top)) := by
  refine ⟨fun h => by simp [create_Bbox, h], fun f0 fs hf hg => ?_, ?_⟩
  · simp [create_Bbox, hf, hg]
  · intro f0 fs p rest hf hg
    refine ⟨⟨(bounds (p :: rest)).1, (bounds (p :: rest)).2.1,
      (bounds (p :: rest)).2.2.1, (bounds (p :: rest)).2.2.2, crs⟩,
      by simp [create_Bbox, hf, hg], rfl, ?_, ?_, ?_, ?_, ?_⟩
    · exact (bounds_spec p rest).1
    · obtain ⟨q, hq, hqe⟩ := (bounds_spec p rest).2.1
      exact ⟨q, hq, hqe⟩
    · obtain ⟨q, hq, hqe⟩ := (bounds_spec p rest).2.2.1
      exact ⟨q, hq, hqe⟩
    · obtain ⟨q, hq, hqe⟩ := (bounds_spec p rest).2.2.2.1
      exact ⟨q, hq, hqe⟩
    · obtain ⟨q, hq, hqe⟩ := (bounds_spec p rest).2.2.2.2
      exact ⟨q, hq, hqe⟩

/-- C9 witness: the failure clauses instantiated on concrete inputs, and
the success clause on a concrete two-point geometry. -/
theorem create_Bbox_spec_witness :
    create_Bbox ⟨[]⟩ "EPSG:4326" = Except.error PyErr.indexError ∧
    create_Bbox ⟨[⟨none⟩]⟩ "EPSG:4326"
      = Except.error PyErr.assertionError ∧
    ∃ bb, create_Bbox ⟨[⟨some [(1, 2), (3, 1)]⟩]⟩ "EPSG:4326"
        = Except.ok bb ∧ bb.crs = "EPSG:4326" ∧
      (∀ q ∈ [((1 : ℚ), (2 : ℚ)), (3, 1)], bb.left ≤ q.1 ∧
        q.1 ≤ bb.right ∧ bb.bottom ≤ q.2 ∧ q.2 ≤ bb.top) ∧
      (∃ q ∈ [((1 : ℚ), (2 : ℚ)), (3, 1)], q.1 = bb.left) ∧
      (∃ q ∈ [((1 : ℚ), (2 : ℚ)), (3, 1)], q.2 = bb.bottom) ∧
      (∃ q ∈ [((1 : ℚ), (2 : ℚ)), (3, 1)], q.1 = bb.right) ∧
      (∃ q ∈ [((1 : ℚ), (2 : ℚ)), (3, 1)], q.2 = bb.top) :=
  ⟨(create_Bbox_spec ⟨[]⟩ "EPSG:4326").1 rfl,
   (create_Bbox_spec ⟨[⟨none⟩]⟩ "EPSG:4326").2.1 ⟨none⟩ [] rfl rfl,
   (create_Bbox_spec ⟨[⟨some [(1, 2), (3, 1)]⟩]⟩ "EPSG:4326").2.2
     ⟨some [(1, 2), (3, 1)]⟩ [] (1, 2) [(3, 1)] rfl rfl⟩

/-! ### `DateGlob` (src/cuber/date_glob.py) -/

/-- Python `str.replace(pat, rep)` on character lists: replace every
occurrence of `pat`, scanning left to right, non-overlapping (all patterns
used here have two characters). -/
def replaceL (pat rep : List Char) : List Char → List Char
  | [] => []
  | c :: rest =>
    if pat.isPrefixOf (c :: rest) then
      rep ++ replaceL pat rep (rest.drop (pat.length - 1))
    else c :: replaceL pat rep rest
termination_by s => s.length
decreasing_by
  all_goals simp only [List.length_drop, List.length_cons]
  all_goals omega

/-- Python's substring test `pat in s`. -/
def containsSub (pat : List Char) : List Char → Bool
  | [] => pat.isEmpty
  | c :: rest => pat.isPrefixOf (c :: rest) || containsSub pat rest

/-- The characters of `"[0-9]"`. -/
def dclass : List Char := ['[', '0', '-', '9', ']']

/-- `self.__Y = "[0-9]" * 4`. -/
def globY : List Char := List.flatten (List.replicate 4 dclass)

/-- `self.__m = "[0-9]" * 2`. -/
def globm : List Char := List.flatten (List.replicate 2 dclass)

/-- `self.__d = "[0-9]" * 2`. -/
def globd : List Char := List.flatten (List.replicate 2 dclass)

/-- `self.__j = "[0-9]" * 3`. -/
def globj : List Char := List.flatten (List.replicate 3 dclass)

/-- `DateGlob.__parse_date`: sequentially replace `%Y`, `%m`, `%d`, `%j`,
each replacement guarded by a substring test (`%Y` tested against the
original `datestr`, the others against the current pattern). -/
def parse_date (datestr : List Char) : List Char :=
  let p1 := if containsSub ['%', 'Y'] datestr then
      replaceL ['%', 'Y'] globY datestr else datestr
  let p2 := if containsSub ['%', 'm'] p1 then
      replaceL ['%', 'm'] globm p1 else p1
  let p3 := if containsSub ['%', 'd'] p2 then
      replaceL ['%', 'd'] globd p2 else p2
  let p4 := if containsSub ['%', 'j'] p3 then
      replaceL ['%', 'j'] globj p3 else p3
  p4

/-- `DateGlob(datestr).pattern` on strings. -/
def dateGlobPattern (datestr : String) : String :=
  String.mk (parse_date datestr.toList)

/-- The spec's description of the compilation (§4.5), as a left-to-right
scan: each occurrence of the tokens `%Y`/`%m`/`%d`/`%j` becomes its
fixed-width digit class; every other character — including those of an
unrecognized `%` token — passes through unchanged. -/
def dateGlobSpec : List Char → List Char
  | [] => []
  | [c] => [c]
  | c1 :: c2 :: rest =>
    if c1 = '%' ∧ c2 = 'Y' then globY ++ dateGlobSpec rest
    else if c1 = '%' ∧ c2 = 'm' then globm ++ dateGlobSpec rest
    else if c1 = '%' ∧ c2 = 'd' then globd ++ dateGlobSpec rest
    else if c1 = '%' ∧ c2 = 'j' then globj ++ dateGlobSpec rest
    else c1 :: dateGlobSpec (c2 :: rest)

theorem isPrefixOf_pair_false_head (x c : Char) (u : List Char)
    (h : c ≠ '%') : ['%', x].isPrefixOf (c :: u) = false := by
  simp [List.isPrefixOf, Ne.symm h]

theorem isPrefixOf_pair_false_snd (x : Char) (u : List Char)
    (h : u.head? ≠ some x) : ['%', x].isPrefixOf ('%' :: u) = false := by
  cases u with
  | nil => simp [List.isPrefixOf]
  | cons y u' =>
    simp only [List.head?_cons, ne_eq, Option.some.injEq] at h
    simp [List.isPrefixOf, Ne.symm h]

theorem replaceL_nil (pat rep : List Char) : replaceL pat rep [] = [] := by
  simp [replaceL]

theorem replaceL_cons_neg (pat rep : List Char) (c : Char) (u : List Char)
    (h : pat.isPrefixOf (c :: u) = false) :
    replaceL pat rep (c :: u) = c :: replaceL pat rep u := by
  rw [replaceL, h]
  simp

theorem replaceL_fire (x : Char) (rep t : List Char) :
    replaceL ['%', x] rep ('%' :: x :: t) = rep ++ replaceL ['%', x] rep t := by
  rw [replaceL]
  simp [List.isPrefixOf]

theorem replaceL_singleton (x : Char) (rep : List Char) (c : Char) :
    replaceL ['%', x] rep [c] = [c] := by
  rw [replaceL]
  simp [List.isPrefixOf, replaceL_nil]

theorem replaceL_clean_append (x : Char) (rep p u : List Char)
    (hp : ∀ ch ∈ p, ch ≠ '%') :
    replaceL ['%', x] rep (p ++ u) = p ++ replaceL ['%', x] rep u := by
  induction p with
  | nil => rfl
  | cons ch p' ih =>
    have hch : ch ≠ '%' := hp ch (List.mem_cons_self ch p')
    rw [List.cons_append,
      replaceL_cons_neg _ _ _ _ (isPrefixOf_pair_false_head x ch _ hch),
      ih fun a ha => hp a (List.mem_cons_of_mem ch ha), List.cons_append]

theorem replaceL_not_contains (pat rep : List Char) :
    ∀ s, containsSub pat s = false → replaceL pat rep s = s := by
  intro s
  induction s with
  | nil => intro _; exact replaceL_nil pat rep
  | cons c rest ih =>
    intro h
    simp only [containsSub, Bool.or_eq_false_iff] at h
    rw [replaceL_cons_neg _ _ _ _ h.1, ih h.2]

/-- A guarded replacement equals the unguarded one: when the pattern does
not occur, the replacement is the identity anyway. -/
theorem guard_replace (pat rep s : List Char) :
    (if containsSub pat s then replaceL pat rep s else s)
      = replaceL pat rep s := by
  cases hb : containsSub pat s with
  | true => simp
  | false => simp [replaceL_not_contains pat rep s hb]

/-- The substring guards in `__parse_date` are no-ops: the composed
function equals the unguarded sequential replacement. -/
theorem parse_date_eq_chain (s : List Char) :
    parse_date s =
      replaceL ['%', 'j'] globj (replaceL ['%', 'd'] globd
        (replaceL ['%', 'm'] globm (replaceL ['%', 'Y'] globY s))) := by
  simp only [parse_date, guard_replace]

theorem globY_clean : ∀ ch ∈ globY, ch ≠ '%' := by decide

theorem globm_clean : ∀ ch ∈ globm, ch ≠ '%' := by decide

theorem globd_clean : ∀ ch ∈ globd, ch ≠ '%' := by decide

theorem globj_clean : ∀ ch ∈ globj, ch ≠ '%' := by decide

theorem replaceL_head (x : Char) (rep s : List Char)
    (hrep : rep.head? = some '[') :
    (replaceL ['%', x] rep s).head? = some '[' ∨
    (replaceL ['%', x] rep s).head? = s.head? := by
  cases s with
  | nil => right; rw [replaceL_nil]
  | cons c rest =>
    by_cases h : ['%', x].isPrefixOf (c :: rest) = true
    · left
      rw [replaceL, h]
      cases rep with
      | nil => cases hrep
      | cons r rep' =>
        simp only [List.head?_cons, Option.some.injEq] at hrep
        simp [hrep]
    · right
      rw [replaceL_cons_neg _ _ _ _ (Bool.not_eq_true _ ▸ h)]
      rfl

/-- The unguarded sequential replacement chain of `__parse_date` equals the
spec's single left-to-right token scan. -/
theorem chain_eq_spec : ∀ (n : ℕ) (s : List Char), s.length ≤ n →
    replaceL ['%', 'j'] globj (replaceL ['%', 'd'] globd
      (replaceL ['%', 'm'] globm (replaceL ['%', 'Y'] globY s)))
      = dateGlobSpec s := by
  intro n
  induction n with
  | zero =>
    intro s hs
    obtain rfl : s = [] := List.length_eq_zero.mp (Nat.le_zero.mp hs)
    simp [replaceL_nil, dateGlobSpec]
  | succ n ih =>
    intro s hs
    cases s with
    | nil => simp [replaceL_nil, dateGlobSpec]
    | cons c1 rest =>
      cases rest with
      | nil =>
        rw [replaceL_singleton, replaceL_singleton, replaceL_singleton,
          replaceL_singleton]
        rfl
      | cons c2 rest' =>
        have hlen : rest'.length + 1 ≤ n := by
          simp only [List.length_cons] at hs; omega
        by_cases h1 : c1 = '%'
        · subst h1
          by_cases hY : c2 = 'Y'
          · subst hY
            rw [replaceL_fire,
              replaceL_clean_append 'm' globm globY _ globY_clean,
              replaceL_clean_append 'd' globd globY _ globY_clean,
              replaceL_clean_append 'j' globj globY _ globY_clean,
              ih rest' (by omega)]
            simp [dateGlobSpec]
          · by_cases hm : c2 = 'm'
            · subst hm
              rw [replaceL_cons_neg ['%', 'Y'] globY '%' ('m' :: rest')
                  (isPrefixOf_pair_false_snd 'Y' _ (by simp)),
                replaceL_cons_neg ['%', 'Y'] globY 'm' rest'
                  (isPrefixOf_pair_false_head 'Y' 'm' _ (by decide)),
                replaceL_fire 'm' globm (replaceL ['%', 'Y'] globY rest'),
                replaceL_clean_append 'd' globd globm _ globm_clean,
                replaceL_clean_append 'j' globj globm _ globm_clean,
                ih rest' (by omega)]
              simp [dateGlobSpec]
            · by_cases hd : c2 = 'd'
              · subst hd
                rw [replaceL_cons_neg ['%', 'Y'] globY '%' ('d' :: rest')
                    (isPrefixOf_pair_false_snd 'Y' _ (by simp)),
                  replaceL_cons_neg ['%', 'Y'] globY 'd' rest'
                    (isPrefixOf_pair_false_head 'Y' 'd' _ (by decide)),
                  replaceL_cons_neg ['%', 'm'] globm '%'
                    ('d' :: replaceL ['%', 'Y'] globY rest')
                    (isPrefixOf_pair_false_snd 'm' _ (by simp)),
                  replaceL_cons_neg ['%', 'm'] globm 'd'
                    (replaceL ['%', 'Y'] globY rest')
                    (isPrefixOf_pair_false_head 'm' 'd' _ (by decide)),
                  replaceL_fire 'd' globd
                    (replaceL ['%', 'm'] globm (replaceL ['%', 'Y'] globY rest')),
                  replaceL_clean_append 'j' globj globd _ globd_clean,
                  ih rest' (by omega)]
                simp [dateGlobSpec]
              · by_cases hj : c2 = 'j'
                · subst hj
                  rw [replaceL_cons_neg ['%', 'Y'] globY '%' ('j' :: rest')
                      (isPrefixOf_pair_false_snd 'Y' _ (by simp)),
                    replaceL_cons_neg ['%', 'Y'] globY 'j' rest'
                      (isPrefixOf_pair_false_head 'Y' 'j' _ (by decide)),
                    replaceL_cons_neg ['%', 'm'] globm '%'
                      ('j' :: replaceL ['%', 'Y'] globY rest')
                      (isPrefixOf_pair_false_snd 'm' _ (by simp)),
                    replaceL_cons_neg ['%', 'm'] globm 'j'
                      (replaceL ['%', 'Y'] globY rest')
                      (isPrefixOf_pair_false_head 'm' 'j' _ (by decide)),
                    replaceL_cons_neg ['%', 'd'] globd '%'
                      ('j' :: replaceL ['%', 'm'] globm
                        (replaceL ['%', 'Y'] globY rest'))
                      (isPrefixOf_pair_false_snd 'd' _ (by simp)),
                    replaceL_cons_neg ['%', 'd'] globd 'j'
                      (replaceL ['%', 'm'] globm (replaceL ['%', 'Y'] globY rest'))
                      (isPrefixOf_pair_false_head 'd' 'j' _ (by decide)),
                    replaceL_fire 'j' globj
                      (replaceL ['%', 'd'] globd (replaceL ['%', 'm'] globm
                        (replaceL ['%', 'Y'] globY rest'))),
                    ih rest' (by omega)]
                  simp [dateGlobSpec]
                · -- `%` followed by an unrecognized character
                  rw [replaceL_cons_neg ['%', 'Y'] globY '%' (c2 :: rest')
                      (isPrefixOf_pair_false_snd 'Y' _ (by simp [hY]))]
                  have hw1 := replaceL_head 'Y' globY (c2 :: rest') rfl
                  have hne1 : (replaceL ['%', 'Y'] globY
                      (c2 :: rest')).head? ≠ some 'm' := by
                    rcases hw1 with h | h <;> rw [h] <;> simp [hm]
                  rw [replaceL_cons_neg ['%', 'm'] globm '%' _
                      (isPrefixOf_pair_false_snd 'm' _ hne1)]
                  have hw2 := replaceL_head 'm' globm
                    (replaceL ['%', 'Y'] globY (c2 :: rest')) rfl
                  have hne2 : (replaceL ['%', 'm'] globm (replaceL ['%', 'Y']
                      globY (c2 :: rest'))).head? ≠ some 'd' := by
                    rcases hw2 with h | h <;> rw [h]
                    · simp
                    · rcases hw1 with h' | h' <;> rw [h'] <;> simp [hd]
                  rw [replaceL_cons_neg ['%', 'd'] globd '%' _
                      (isPrefixOf_pair_false_snd 'd' _ hne2)]
                  have hw3 := replaceL_head 'd' globd
                    (replaceL ['%', 'm'] globm (replaceL ['%', 'Y'] globY
                      (c2 :: rest'))) rfl
                  have hne3 : (replaceL ['%', 'd'] globd (replaceL ['%', 'm']
                      globm (replaceL ['%', 'Y'] globY
                        (c2 :: rest')))).head? ≠ some 'j' := by
                    rcases hw3 with h | h <;> rw [h]
                    · simp
                    · rcases hw2 with h' | h' <;> rw [h']
                      · simp
                      · rcases hw1 with h'' | h'' <;> rw [h''] <;> simp [hj]
                  rw [replaceL_cons_neg ['%', 'j'] globj '%' _
                      (isPrefixOf_pair_false_snd 'j' _ hne3),
                    ih (c2 :: rest') (by simpa using hlen)]
                  simp [dateGlobSpec, hY, hm, hd, hj]
        · rw [replaceL_cons_neg ['%', 'Y'] globY c1 (c2 :: rest')
              (isPrefixOf_pair_false_head 'Y' c1 _ h1),
            replaceL_cons_neg ['%', 'm'] globm c1 _
              (isPrefixOf_pair_false_head 'm' c1 _ h1),
            replaceL_cons_neg ['%', 'd'] globd c1 _
              (isPrefixOf_pair_false_head 'd' c1 _ h1),
            replaceL_cons_neg ['%', 'j'] globj c1 _
              (isPrefixOf_pair_false_head 'j' c1 _ h1),
            ih (c2 :: rest') (by simpa using hlen)]
          simp [dateGlobSpec, h1]

/-- C8: `DateGlob` compilation equals the spec's per-occurrence token
substitution — every occurrence of `%Y` becomes `[0-9][0-9][0-9][0-9]`,
`%m` and `%d` become `[0-9][0-9]`, `%j` becomes `[0-9][0-9][0-9]`, and all
other characters (including unrecognized `%` tokens) pass through
unchanged — and in particular the three concrete examples hold. -/
theorem dateGlob_compile_spec :
    (∀ s : List Char, parse_date s = dateGlobSpec s) ∧
    dateGlobPattern "%Y-%m-%d"
      = "[0-9][0-9][0-9][0-9]-[0-9][0-9]-[0-9][0-9]" ∧
    dateGlobPattern "%j" = "[0-9][0-9][0-9]" ∧
    dateGlobPattern "plain" = "plain" := by
  have hall : ∀ s : List Char, parse_date s = dateGlobSpec s := fun s =>
    (parse_date_eq_chain s).trans (chain_eq_spec s.length s le_rfl)
  refine ⟨hall, ?_, ?_, ?_⟩ <;> simp only [dateGlobPattern, hall] <;> rfl

end Cuber
